import Mathlib

/-!
Shallow embedding of `src/backend/main.py` (Water Consumption Forecast API).

The service holds an in-memory table `df` of historical records, a registry of
three pre-trained regressors (`lasso`, `ridge`, `knn`), and exposes the
endpoints `POST /predict`, `GET /compare`, `GET /metrics`, `GET /analysis`.

Modelling choices:
* the pandas table is a `List Record`; `df[df["Country"] == c].sort_values("Year")`
  is filtering followed by a sort on the year column;
* floats are modelled as `ℚ`; `np.sqrt`/`np.std`-style square roots are a
  parameter `f : ℚ → ℚ` of the endpoints (the only fact used about it is that
  a square root of a nonnegative number is nonnegative, which is assumed
  explicitly where needed);
* a regressor artifact (loaded by joblib, external to the repository) is an
  opaque function from a batch of feature rows to an optional list of
  predictions; `none` models `model.predict` raising an exception;
* an HTTP response is `Except HttpError α`: `.error ⟨400, msg⟩` is an
  `HTTPException(400, msg)`, `.error ⟨500, msg⟩` covers both
  `HTTPException(500, msg)` and an uncaught exception (FastAPI returns 500);
* `str.lower()` is `lowerStr` (per-character ASCII lowercasing).
-/

namespace Rander

/-- One row of the dataset: country, year, the categorical
"Water Scarcity Level" column, the remaining numeric covariates (in fixed
column order), and the target column
"Total Water Consumption(Billion Cubic Meters)". -/
structure Record where
  country : String
  year : Int
  scarcity : String
  numerics : List ℚ
  target : ℚ
deriving Repr, DecidableEq, Inhabited

/-- A feature row handed to a regressor: the columns of `FEATURE_COLUMNS`
(numeric covariates including `Year`, then the categoricals `Country` and
`Water Scarcity Level`). -/
structure FeatureRow where
  year : Int
  country : String
  scarcity : String
  numerics : List ℚ
deriving Repr, DecidableEq, Inhabited

/-- An opaque regressor artifact: batch of feature rows in, batch of
predictions out; `none` models `model.predict` raising. -/
abbrev Model := List FeatureRow → Option (List ℚ)

/-- The model registry `model_map`, loaded once at startup with exactly the
three artifacts `lasso_fixed.pkl`, `ridge_fixed.pkl`, `knn_fixed.pkl`. -/
structure Registry where
  lasso : Model
  ridge : Model
  knn : Model

/-- The key/value pairs of `model_map`, in insertion order. -/
def model_map (reg : Registry) : List (String × Model) :=
  [("lasso", reg.lasso), ("ridge", reg.ridge), ("knn", reg.knn)]

/-- The keys of `model_map`. -/
def modelKeys : List String := ["lasso", "ridge", "knn"]

/-- Dictionary lookup `model_map[k]`; only ever used with `k ∈ modelKeys`,
the `getD` default is never reached. -/
def lookupModel (reg : Registry) (k : String) : Model :=
  (((model_map reg).find? (fun p => p.1 == k)).map Prod.snd).getD reg.lasso

/-- Python `str.lower()` restricted to ASCII, which covers the model keys. -/
def lowerStr (s : String) : String := String.mk (s.data.map Char.toLower)

/-- The body of `POST /predict` (`PredictInput`): country, requested year and
the optional model-name list (default `[]`). -/
structure PredictInput where
  country : String
  year : Int
  models : List String
deriving Repr, DecidableEq

/-- An HTTP error response: status code and detail message. -/
structure HttpError where
  code : Nat
  msg : String
deriving Repr, DecidableEq

/-- Lexicographic code-point comparison of character lists — the order
Python's `sorted` uses on strings. -/
def charLe : List Char → List Char → Bool
  | [], _ => true
  | _ :: _, [] => false
  | a :: as, b :: bs =>
    if a.val < b.val then true
    else if b.val < a.val then false
    else charLe as bs

/-- Python's `s1 <= s2` on strings, as a relation on `String`. -/
abbrev strLe (a b : String) : Prop := charLe a.data b.data = true

/-- `COUNTRIES = sorted(df["Country"].dropna().unique().tolist())`:
deduplicate the country column, then sort. -/
def countriesOf (db : List Record) : List String :=
  List.insertionSort strLe ((db.map (fun r => r.country)).dedup)

/-- `df[df["Country"] == country].sort_values("Year")`. -/
def histFor (db : List Record) (c : String) : List Record :=
  List.insertionSort (fun a b => a.year ≤ b.year)
    (db.filter (fun r => r.country == c))

instance : IsTotal Record (fun a b => a.year ≤ b.year) :=
  ⟨fun a b => Int.le_total a.year b.year⟩

instance : IsTrans Record (fun a b => a.year ≤ b.year) :=
  ⟨fun _ _ _ hab hbc => le_trans hab hbc⟩

/-- Projection of a record to its feature row `hist[FEATURE_COLUMNS]`
(the target column is dropped). -/
def featureRowOf (r : Record) : FeatureRow :=
  ⟨r.year, r.country, r.scarcity, r.numerics⟩

/-- `X_hist`: the feature rows of a country's sorted history. -/
def featuresFor (db : List Record) (c : String) : List FeatureRow :=
  (histFor db c).map featureRowOf

/-- `y_true`: the target values of a country's sorted history. -/
def targetsFor (db : List Record) (c : String) : List ℚ :=
  (histFor db c).map (fun r => r.target)

/-- `build_features(country)`: sorted history, feature rows and target values;
raises `ValueError` (an uncaught exception, hence a 500) when the filtered
history is empty. -/
def build_features (db : List Record) (c : String) :
    Except String (List Record × List FeatureRow × List ℚ) :=
  let hist := histFor db c
  if hist.isEmpty then .error ("No data for country " ++ c)
  else .ok (hist, hist.map featureRowOf, hist.map (fun r => r.target))

/-- `X_pred = X_hist.iloc[-1:].copy(); X_pred["Year"] = year;
X_pred["Country"] = country`: the last historical feature row with the year
and country columns overwritten. -/
def buildFutureRow (row : FeatureRow) (c : String) (y : Int) : FeatureRow :=
  { row with year := y, country := c }

/-- The model-selection loop of `predict`: lowercase each requested name in
order, take the first that is a key of `model_map`, default `lasso`. -/
def selectModel : List String → String
  | [] => "lasso"
  | m :: rest => if lowerStr m ∈ modelKeys then lowerStr m else selectModel rest

/-- Arithmetic mean, `np.mean`. -/
def mean (xs : List ℚ) : ℚ := xs.sum / (xs.length : ℚ)

/-- Population variance (mean squared deviation from the mean), the square of
`np.std`. -/
def variance (xs : List ℚ) : ℚ := mean (xs.map (fun x => (x - mean xs) ^ 2))

/-- `std = float(np.std(errors)) if len(errors) else 0.0`, with the square
root supplied as the parameter `f`. -/
def stdOf (f : ℚ → ℚ) (errors : List ℚ) : ℚ :=
  if errors.length ≠ 0 then f (variance errors) else 0

/-- `errors = np.array(y_true) - np.array(y_fit)`: the historical fit
residuals. -/
def residuals (yTrue yFit : List ℚ) : List ℚ :=
  List.zipWith (fun a b => a - b) yTrue yFit

/-- The confidence band: `[v - 2*std, v + 2*std]` around each fitted value,
plus one trailing entry around the forecast. -/
def bandOf (s : ℚ) (yFit : List ℚ) (yFuture : ℚ) : List (ℚ × ℚ) :=
  (yFit.map (fun v => (v - 2 * s, v + 2 * s)))
    ++ [(yFuture - 2 * s, yFuture + 2 * s)]

/-- The JSON object returned by a successful `POST /predict`. -/
structure PredictResponse where
  model_used : String
  years : List Int
  values : List ℚ
  current : ℚ
  predicted : ℚ
  change : ℚ
  band : List (ℚ × ℚ)
  metrics : List (String × ℚ)
deriving Repr, DecidableEq, Inhabited

/-- `POST /predict` (`predict(body)` in `main.py`): validate the country,
build features, pick a model, run it over history and over the synthetic
future row, and assemble fit, forecast, percent change and the ±2·std
confidence band.  Failure branches: unknown country → 400; empty history
(`build_features` raising) → 500; a raising model → 500
(`"Prediction failed: ..."`); an empty prediction batch → 500 (`IndexError`);
a history/fit length mismatch → 500 (numpy broadcast error — under the
one-prediction-per-row model contract this branch is unreachable). -/
def predict (db : List Record) (reg : Registry) (f : ℚ → ℚ)
    (body : PredictInput) : Except HttpError PredictResponse :=
  if body.country ∈ countriesOf db then
    match build_features db body.country with
    | .error e => .error ⟨500, e⟩
    | .ok (hist, xHist, yTrue) =>
      match xHist.getLast? with
      | none => .error ⟨500, "single positional indexer is out-of-bounds"⟩
      | some lastRow =>
        let xPred := buildFutureRow lastRow body.country body.year
        let key := selectModel body.models
        let model := lookupModel reg key
        match model xHist, model [xPred] with
        | some yFit, some futPreds =>
          match futPreds with
          | [] => .error ⟨500, "Prediction failed: index 0 is out of bounds"⟩
          | yFuture :: _ =>
            match yFit.getLast? with
            | none => .error ⟨500, "index -1 is out of bounds"⟩
            | some current =>
              if yTrue.length = yFit.length then
                let change :=
                  if current ≠ 0 then (yFuture - current) / current * 100 else 0
                let std := stdOf f (residuals yTrue yFit)
                .ok { model_used := key
                      years := hist.map (fun r => r.year) ++ [body.year]
                      values := yFit ++ [yFuture]
                      current := current
                      predicted := yFuture
                      change := change
                      band := bandOf std yFit yFuture
                      metrics := [] }
              else .error ⟨500, "operands could not be broadcast together"⟩
        | _, _ => .error ⟨500, "Prediction failed"⟩
  else .error ⟨400, "Invalid country: " ++ body.country⟩

/-- The JSON object returned by a successful `GET /compare`. -/
structure CompareResponse where
  years : List Int
  lasso : List ℚ
  ridge : List ℚ
  knn : List ℚ
deriving Repr, DecidableEq, Inhabited

/-- The per-model try/except body of `compare`: a model's predictions, or `[]`
when its `predict` raises. -/
def compareOne (m : Model) (xHist : List FeatureRow) : List ℚ :=
  match m xHist with
  | some preds => preds
  | none => []

/-- `GET /compare` (`compare(country)` in `main.py`): validate the country,
then run every registered model over the history, recording `[]` for a model
whose predict call raises. -/
def compare (db : List Record) (reg : Registry) (country : String) :
    Except HttpError CompareResponse :=
  if country ∈ countriesOf db then
    let hist := histFor db country
    let xHist := hist.map featureRowOf
    .ok { years := hist.map (fun r => r.year)
          lasso := compareOne reg.lasso xHist
          ridge := compareOne reg.ridge xHist
          knn := compareOne reg.knn xHist }
  else .error ⟨400, "Invalid country: " ++ country⟩

/-- One model's entry in the `GET /metrics` response: the four metric values,
`none` standing for JSON `null`. -/
structure MetricRec where
  MAE : Option ℚ
  RMSE : Option ℚ
  R2 : Option ℚ
  MAPE : Option ℚ
deriving Repr, DecidableEq, Inhabited

/-- `sklearn.metrics.r2_score` (external library call, modelled from its
documented behaviour): `1 - ss_res/ss_tot`, with the constant-target
degenerate case handled as sklearn documents it. -/
def r2score (yTrue yPred : List ℚ) : ℚ :=
  let ssRes := (List.zipWith (fun t p => (t - p) ^ 2) yTrue yPred).sum
  let ssTot := (yTrue.map (fun t => (t - mean yTrue) ^ 2)).sum
  if ssTot = 0 then (if ssRes = 0 then 1 else 0) else 1 - ssRes / ssTot

/-- The per-model try/except body of `metrics`: MAE, RMSE, R², and MAPE over
the nonzero-true subset (`None` when every true value is zero); any failure
(a raising model, or sklearn rejecting a length mismatch) yields four `None`s. -/
def metricsOne (f : ℚ → ℚ) (yTrue : List ℚ) (xHist : List FeatureRow)
    (m : Model) : MetricRec :=
  match m xHist with
  | none => ⟨none, none, none, none⟩
  | some yPred =>
    if yPred.length = yTrue.length then
      let mae := mean (List.zipWith (fun t p => |t - p|) yTrue yPred)
      let rmse := f (mean (List.zipWith (fun t p => (t - p) ^ 2) yTrue yPred))
      let r2 := r2score yTrue yPred
      let nz := (yTrue.zip yPred).filter (fun tp => tp.1 != 0)
      let mape :=
        if nz.isEmpty then none
        else some (mean (nz.map (fun tp => |(tp.1 - tp.2) / tp.1|)) * 100)
      ⟨some mae, some rmse, some r2, mape⟩
    else ⟨none, none, none, none⟩

/-- The JSON object returned by a successful `GET /metrics`: one `MetricRec`
per registered model. -/
structure MetricsResponse where
  lasso : MetricRec
  ridge : MetricRec
  knn : MetricRec
deriving Repr, DecidableEq, Inhabited

/-- `GET /metrics` (`metrics(country)` in `main.py`): validate the country,
build features, then compute the four metrics for every model independently. -/
def metricsAll (db : List Record) (reg : Registry) (f : ℚ → ℚ)
    (country : String) : Except HttpError MetricsResponse :=
  if country ∈ countriesOf db then
    match build_features db country with
    | .error e => .error ⟨500, e⟩
    | .ok (_, xHist, yTrue) =>
      .ok { lasso := metricsOne f yTrue xHist reg.lasso
            ridge := metricsOne f yTrue xHist reg.ridge
            knn := metricsOne f yTrue xHist reg.knn }
  else .error ⟨400, "Invalid country: " ++ country⟩

/-- The JSON object returned by a successful `GET /analysis`. -/
structure AnalysisResponse where
  years : List Int
  true_values : List ℚ
deriving Repr, DecidableEq, Inhabited

/-- `GET /analysis` (`country_analysis(country)` in `main.py`): validate the
country (400), return 404 if its filtered history is empty, else the years
and true target values in sorted-by-year order. -/
def country_analysis (db : List Record) (country : String) :
    Except HttpError AnalysisResponse :=
  if country ∈ countriesOf db then
    let hist := histFor db country
    if hist.isEmpty then .error ⟨404, "No data for this country"⟩
    else .ok { years := hist.map (fun r => r.year)
               true_values := hist.map (fun r => r.target) }
  else .error ⟨400, "Invalid country: " ++ country⟩

/-! Concrete test fixtures used by the witnesses. -/

/-- A small concrete dataset: three Brazil rows (deliberately out of year
order, to exercise the sort) and one Chad row whose target is zero. -/
def waterDb : List Record :=
  [⟨"Brazil", 2019, "Low", [2], 105⟩,
   ⟨"Brazil", 2018, "Low", [1], 100⟩,
   ⟨"Brazil", 2020, "Low", [3], 110⟩,
   ⟨"Chad", 2000, "High", [5], 0⟩]

/-- A regressor stub that predicts the year of each row. -/
def yearModel : Model := fun rows => some (rows.map (fun r => (r.year : ℚ)))

/-- A regressor stub whose predict call always raises. -/
def failModel : Model := fun _ => none

/-- A registry in which all three models behave. -/
def testReg : Registry := ⟨yearModel, yearModel, yearModel⟩

/-- A registry in which all three models raise. -/
def failReg : Registry := ⟨failModel, failModel, failModel⟩

/-- A registry in which only `ridge` raises. -/
def mixedReg : Registry := ⟨yearModel, failModel, yearModel⟩

/-- A concrete `POST /predict` body. -/
def testBody : PredictInput := ⟨"Brazil", 2025, ["knn"]⟩

/-- The concrete response of `POST /predict` on the fixtures. -/
def testResp : PredictResponse :=
  (predict waterDb testReg id testBody).toOption.getD default

/-- The concrete response of `GET /metrics` for Chad on the fixtures. -/
def chadMetrics : MetricsResponse :=
  (metricsAll waterDb testReg id "Chad").toOption.getD default

/-! Helper lemmas. -/

/-- Membership in the derived country list is membership in the table's
country column. -/
theorem mem_countriesOf {db : List Record} {c : String} :
    c ∈ countriesOf db ↔ ∃ r ∈ db, r.country = c := by
  unfold countriesOf
  rw [(List.perm_insertionSort _ _).mem_iff, List.mem_dedup, List.mem_map]

/-- A country drawn from the table has at least one row in its filtered,
sorted history. -/
theorem histFor_ne_nil {db : List Record} {c : String}
    (h : c ∈ countriesOf db) : histFor db c ≠ [] := by
  obtain ⟨r, hr, rfl⟩ := mem_countriesOf.mp h
  unfold histFor
  intro hnil
  have hperm := List.perm_insertionSort
    (fun a b : Record => a.year ≤ b.year) (db.filter (fun x => x.country == r.country))
  rw [hnil] at hperm
  have hmem : r ∈ db.filter (fun x => x.country == r.country) := by
    rw [List.mem_filter]; exact ⟨hr, by simp⟩
  rw [hperm.symm.eq_nil] at hmem
  simp at hmem

/-- Characterization of a successful `build_features`. -/
theorem build_features_of_mem {db : List Record} {c : String}
    (h : c ∈ countriesOf db) :
    build_features db c = .ok (histFor db c, featuresFor db c, targetsFor db c) := by
  unfold build_features featuresFor targetsFor
  simp [List.isEmpty_iff, histFor_ne_nil h]

/-- A valid country's `GET /analysis` response: always 200, years and targets
read off the sorted history. -/
theorem country_analysis_of_mem {db : List Record} {c : String}
    (h : c ∈ countriesOf db) :
    country_analysis db c = .ok
      { years := (histFor db c).map (fun r => r.year)
        true_values := (histFor db c).map (fun r => r.target) } := by
  unfold country_analysis
  simp [h, List.isEmpty_iff, histFor_ne_nil h]

/-- The population variance is nonnegative. -/
theorem variance_nonneg (xs : List ℚ) : 0 ≤ variance xs := by
  unfold variance mean
  apply div_nonneg
  · apply List.sum_nonneg
    intro x hx
    obtain ⟨y, _, rfl⟩ := List.mem_map.mp hx
    positivity
  · positivity

/-- The modelled `np.std` is nonnegative whenever the square-root parameter
sends nonnegatives to nonnegatives. -/
theorem stdOf_nonneg {f : ℚ → ℚ} (hf : ∀ x : ℚ, 0 ≤ x → 0 ≤ f x)
    (errors : List ℚ) : 0 ≤ stdOf f errors := by
  unfold stdOf
  split
  · exact hf _ (variance_nonneg errors)
  · exact le_refl 0

/-- The selected model key is always a registry key. -/
theorem selectModel_mem (ms : List String) : selectModel ms ∈ modelKeys := by
  induction ms with
  | nil => decide
  | cons m rest ih =>
    unfold selectModel
    split
    · assumption
    · exact ih

/-- Inversion of a successful `build_features`. -/
theorem build_features_ok_inv {db : List Record} {c : String}
    {x : List Record × List FeatureRow × List ℚ}
    (h : build_features db c = .ok x) :
    x = (histFor db c, featuresFor db c, targetsFor db c) := by
  unfold build_features at h
  by_cases he : (histFor db c).isEmpty
  · simp [he] at h
  · simp [he] at h
    simpa [featuresFor, targetsFor] using h.symm

/-- Inversion of a successful `POST /predict`: the validated country, the
last historical feature row, the two model calls, and the exact shape of the
response. -/
theorem predict_ok_inv {db : List Record} {reg : Registry} {f : ℚ → ℚ}
    {body : PredictInput} {resp : PredictResponse}
    (h : predict db reg f body = .ok resp) :
    ∃ lastRow yFit yFuture rest current,
      body.country ∈ countriesOf db ∧
      (featuresFor db body.country).getLast? = some lastRow ∧
      lookupModel reg (selectModel body.models) (featuresFor db body.country)
        = some yFit ∧
      lookupModel reg (selectModel body.models)
        [buildFutureRow lastRow body.country body.year]
        = some (yFuture :: rest) ∧
      yFit.getLast? = some current ∧
      (targetsFor db body.country).length = yFit.length ∧
      resp = { model_used := selectModel body.models
               years := (histFor db body.country).map (fun r => r.year)
                          ++ [body.year]
               values := yFit ++ [yFuture]
               current := current
               predicted := yFuture
               change := if current ≠ 0
                         then (yFuture - current) / current * 100 else 0
               band := bandOf
                         (stdOf f (residuals (targetsFor db body.country) yFit))
                         yFit yFuture
               metrics := [] } := by
  unfold predict at h
  by_cases hc : body.country ∈ countriesOf db
  · rw [if_pos hc, build_features_of_mem hc] at h
    dsimp only at h
    cases hlast : (featuresFor db body.country).getLast? with
    | none => rw [hlast] at h; simp at h
    | some lastRow =>
      rw [hlast] at h
      dsimp only at h
      cases hfit : lookupModel reg (selectModel body.models)
          (featuresFor db body.country) with
      | none => rw [hfit] at h; simp at h
      | some yFit =>
        cases hfut : lookupModel reg (selectModel body.models)
            [buildFutureRow lastRow body.country body.year] with
        | none => rw [hfit, hfut] at h; simp at h
        | some futPreds =>
          rw [hfit, hfut] at h
          dsimp only at h
          cases futPreds with
          | nil => simp at h
          | cons yFuture rest =>
            cases hcur : yFit.getLast? with
            | none => rw [hcur] at h; simp at h
            | some current =>
              rw [hcur] at h
              dsimp only at h
              by_cases hlen : (targetsFor db body.country).length = yFit.length
              · rw [if_pos hlen] at h
                refine ⟨lastRow, yFit, yFuture, rest, current,
                  hc, rfl, rfl, hfut, hcur, hlen, ?_⟩
                injection h with h2
                exact h2.symm
              · rw [if_neg hlen] at h; simp at h
  · rw [if_neg hc] at h; simp at h

/-- Inversion of a successful `GET /metrics`: the response computes
`metricsOne` for each registered model over the country's features. -/
theorem metricsAll_ok_inv {db : List Record} {reg : Registry} {f : ℚ → ℚ}
    {c : String} {res : MetricsResponse}
    (h : metricsAll db reg f c = .ok res) :
    res = { lasso := metricsOne f (targetsFor db c) (featuresFor db c) reg.lasso
            ridge := metricsOne f (targetsFor db c) (featuresFor db c) reg.ridge
            knn := metricsOne f (targetsFor db c) (featuresFor db c) reg.knn } := by
  unfold metricsAll at h
  by_cases hc : c ∈ countriesOf db
  · rw [if_pos hc, build_features_of_mem hc] at h
    dsimp only at h
    exact (Except.ok.inj h).symm
  · rw [if_neg hc] at h
    exact absurd h (by simp)

/-- The nonzero-mask of a zipped pair list is empty exactly when every
left component is zero (for lists of equal length). -/
theorem filter_zip_nil_iff :
    ∀ (yt yp : List ℚ), yt.length = yp.length →
      ((yt.zip yp).filter (fun tp => tp.1 != 0) = [] ↔ ∀ t ∈ yt, t = 0) := by
  intro yt
  induction yt with
  | nil => intro yp hl; simp
  | cons t ts ih =>
    intro yp hl
    cases yp with
    | nil => simp at hl
    | cons p ps =>
      have hl2 : ts.length = ps.length := by
        simpa using hl
      by_cases ht : t = 0
      · subst ht
        have hstep : (((0 : ℚ) :: ts).zip (p :: ps)).filter
            (fun tp => tp.1 != 0) = (ts.zip ps).filter (fun tp => tp.1 != 0) := by
          simp [List.zip_cons_cons, List.filter_cons]
        rw [hstep, ih ps hl2]
        constructor
        · intro hall t2 ht2
          rcases List.mem_cons.mp ht2 with h1 | h2
          · exact h1
          · exact hall t2 h2
        · intro hall t2 ht2
          exact hall t2 (List.mem_cons_of_mem _ ht2)
      · constructor
        · intro hcontra
          exfalso
          have : (t, p) ∈ (((t, p) :: ts.zip ps).filter
              (fun tp => tp.1 != 0)) := by
            rw [List.mem_filter]
            exact ⟨List.mem_cons_self _ _, by simpa using ht⟩
          rw [List.zip_cons_cons] at hcontra
          rw [hcontra] at this
          simp at this
        · intro hall
          exact absurd (hall t (List.mem_cons_self t ts)) ht

/-- Pulling a constant factor out of the mean of a mapped list. -/
theorem mean_map_mul_const {α : Type} (l : List α) (g : α → ℚ) (c : ℚ) :
    mean (l.map (fun x => g x * c)) = mean (l.map g) * c := by
  unfold mean
  rw [List.length_map, List.length_map, div_mul_eq_mul_div]
  congr 1
  induction l with
  | nil => simp
  | cons x xs ih => simp [ih]; ring

/-- The MAPE entry of `metricsOne` for a model that predicts successfully
with one prediction per row: `none` exactly when every true value is zero,
otherwise the mean of `|(true - pred) / true| * 100` over the nonzero-true
pairs. -/
theorem metricsOne_mape (f : ℚ → ℚ) (yTrue : List ℚ) (xs : List FeatureRow)
    (m : Model) (yPred : List ℚ) (hm : m xs = some yPred)
    (hlen : yPred.length = yTrue.length) :
    ((metricsOne f yTrue xs m).MAPE = none ↔ ∀ t ∈ yTrue, t = 0) ∧
    ((∃ t ∈ yTrue, t ≠ 0) →
      (metricsOne f yTrue xs m).MAPE
        = some (mean (((yTrue.zip yPred).filter (fun tp => tp.1 != 0)).map
            (fun tp => |(tp.1 - tp.2) / tp.1| * 100)))) := by
  unfold metricsOne
  rw [hm]
  dsimp only
  rw [if_pos hlen]
  dsimp only
  have hiff := filter_zip_nil_iff yTrue yPred hlen.symm
  constructor
  · by_cases he : ((yTrue.zip yPred).filter (fun tp => tp.1 != 0)).isEmpty
    · rw [if_pos he]
      exact iff_of_true rfl (hiff.mp (List.isEmpty_iff.mp he))
    · rw [if_neg he]
      refine iff_of_false (by simp) ?_
      intro hall
      exact he (List.isEmpty_iff.mpr (hiff.mpr hall))
  · intro hex
    have hne : ¬ ((yTrue.zip yPred).filter (fun tp => tp.1 != 0)).isEmpty := by
      intro he
      obtain ⟨t, ht, ht0⟩ := hex
      exact ht0 (hiff.mp (List.isEmpty_iff.mp he) t ht)
    rw [if_neg hne]
    rw [← mean_map_mul_const ((yTrue.zip yPred).filter (fun tp => tp.1 != 0))
      (fun tp => |(tp.1 - tp.2) / tp.1|) 100]

/-! Claim theorems. -/

/-- C1: a `POST /predict` whose country is not in the derived country list
answers 400 (never 500), for every registry and square-root function — the
membership validation happens before any feature construction or model
inference, so no model is ever consulted. -/
theorem predict_unknown_country_400 (db : List Record) (reg : Registry)
    (f : ℚ → ℚ) (body : PredictInput)
    (h : body.country ∉ countriesOf db) :
    predict db reg f body
      = .error ⟨400, "Invalid country: " ++ body.country⟩ := by
  unfold predict
  rw [if_neg h]

/-- Witness for C1 at a concrete unknown country. -/
theorem predict_unknown_country_400_witness :
    ("Atlantis" : String) ∉ countriesOf waterDb ∧
    predict waterDb testReg id ⟨"Atlantis", 2030, []⟩
      = .error ⟨400, "Invalid country: " ++ "Atlantis"⟩ :=
  ⟨by decide,
   predict_unknown_country_400 waterDb testReg id ⟨"Atlantis", 2030, []⟩
     (by decide)⟩

/-- C2: model selection scans the requested names in order, lowercases each,
and uses the first that is a registry key; an empty or matchless list yields
`lasso`; in particular `["RIDGE", "lasso"]` selects `ridge` and
`["unknown"]` selects `lasso`. -/
theorem selectModel_spec :
    (∀ ms : List String,
      selectModel ms
        = ((ms.map lowerStr).find? (fun s => s ∈ modelKeys)).getD "lasso") ∧
    (∀ ms : List String, (∀ m ∈ ms, lowerStr m ∉ modelKeys) →
      selectModel ms = "lasso") ∧
    selectModel [] = "lasso" ∧
    selectModel ["RIDGE", "lasso"] = "ridge" ∧
    selectModel ["unknown"] = "lasso" := by
  have hfind : ∀ ms : List String,
      selectModel ms
        = ((ms.map lowerStr).find? (fun s => s ∈ modelKeys)).getD "lasso" := by
    intro ms
    induction ms with
    | nil => rfl
    | cons m rest ih =>
      by_cases hm : lowerStr m ∈ modelKeys
      · simp [selectModel, hm]
      · simp [selectModel, hm, ih]
  refine ⟨hfind, ?_, by decide, by decide, by decide⟩
  intro ms h
  induction ms with
  | nil => rfl
  | cons m rest ih =>
    have hm := h m (List.mem_cons_self m rest)
    simp only [selectModel, if_neg hm]
    exact ih (fun x hx => h x (List.mem_cons_of_mem m hx))

/-- Witness for C2 at the concrete inputs named by the claim. -/
theorem selectModel_spec_witness :
    selectModel ["unknown"] = "lasso" ∧
    selectModel ["RIDGE", "lasso"] = "ridge" :=
  ⟨selectModel_spec.2.1 ["unknown"] (by decide),
   selectModel_spec.2.2.2.1⟩

/-- C3: in every successful `POST /predict` response, `current` is the last
element of the historical fit (the values with the trailing forecast
removed), and `change` is `(future - current) / current * 100`, with the
explicit degenerate value `0` when `current = 0`. -/
theorem predict_current_change (db : List Record) (reg : Registry)
    (f : ℚ → ℚ) (body : PredictInput) (resp : PredictResponse)
    (h : predict db reg f body = .ok resp) :
    resp.values.dropLast.getLast? = some resp.current ∧
    (resp.current = 0 → resp.change = 0) ∧
    (resp.current ≠ 0 →
      resp.change = (resp.predicted - resp.current) / resp.current * 100) := by
  obtain ⟨lastRow, yFit, yFuture, rest, current, hc, hlast, hfit, hfut, hcur,
    hlen, rfl⟩ := predict_ok_inv h
  refine ⟨?_, ?_, ?_⟩
  · simpa [List.dropLast_concat] using hcur
  · intro h0
    dsimp only at h0 ⊢
    rw [if_neg (not_not_intro h0)]
  · intro h0
    dsimp only at h0 ⊢
    rw [if_pos h0]

/-- Witness for C3 on the concrete fixtures. -/
theorem predict_current_change_witness :
    predict waterDb testReg id testBody = .ok testResp ∧
    testResp.values.dropLast.getLast? = some testResp.current := by
  have hp : predict waterDb testReg id testBody = .ok testResp := rfl
  exact ⟨hp, (predict_current_change waterDb testReg id testBody testResp hp).1⟩

/-- C4: in every successful `POST /predict` response the band has one entry
per historical point plus one trailing entry, each entry is
`[v - 2*std, v + 2*std]` around the corresponding fitted/predicted value,
where `std` is the modelled `np.std` of the residuals
`trueValue[i] - fit[i]`; consequently the band brackets `values` at every
index. -/
theorem predict_band (db : List Record) (reg : Registry) (f : ℚ → ℚ)
    (hf : ∀ x : ℚ, 0 ≤ x → 0 ≤ f x) (body : PredictInput)
    (resp : PredictResponse) (h : predict db reg f body = .ok resp) :
    resp.band.length = (histFor db body.country).length + 1 ∧
    resp.band.length = resp.values.length ∧
    (∃ s : ℚ, 0 ≤ s ∧
      s = stdOf f (residuals (targetsFor db body.country)
            resp.values.dropLast) ∧
      resp.band = resp.values.map (fun v => (v - 2 * s, v + 2 * s))) ∧
    (∀ i (hb : i < resp.band.length) (hv : i < resp.values.length),
      (resp.band[i]).1 ≤ resp.values[i] ∧
      resp.values[i] ≤ (resp.band[i]).2) := by
  obtain ⟨lastRow, yFit, yFuture, rest, current, hc, hlast, hfit, hfut, hcur,
    hlen, rfl⟩ := predict_ok_inv h
  dsimp only
  have hs0 : 0 ≤ stdOf f (residuals (targetsFor db body.country) yFit) :=
    stdOf_nonneg hf _
  have hband : bandOf (stdOf f (residuals (targetsFor db body.country) yFit))
      yFit yFuture
      = (yFit ++ [yFuture]).map
          (fun v => (v - 2 * stdOf f (residuals (targetsFor db body.country)
            yFit), v + 2 * stdOf f (residuals (targetsFor db body.country)
            yFit))) := by
    simp [bandOf]
  have hlh : (targetsFor db body.country).length
      = (histFor db body.country).length := by
    simp [targetsFor]
  refine ⟨?_, ?_, ?_, ?_⟩
  · simp only [bandOf, List.length_append, List.length_map,
      List.length_singleton]
    omega
  · simp [bandOf]
  · refine ⟨stdOf f (residuals (targetsFor db body.country) yFit),
      hs0, ?_, hband⟩
    rw [List.dropLast_concat]
  · intro i hb hv
    have hi : (bandOf (stdOf f (residuals (targetsFor db body.country) yFit))
        yFit yFuture)[i]
        = ((yFit ++ [yFuture])[i]
            - 2 * stdOf f (residuals (targetsFor db body.country) yFit),
           (yFit ++ [yFuture])[i]
            + 2 * stdOf f (residuals (targetsFor db body.country) yFit)) := by
      simp only [hband, List.getElem_map]
    rw [hi]
    constructor <;> dsimp only <;> linarith

/-- Witness for C4 on the concrete fixtures, with the identity as the
(nonnegativity-preserving) square-root function. -/
theorem predict_band_witness :
    testResp.band.length = (histFor waterDb "Brazil").length + 1 ∧
    testResp.band.length = testResp.values.length := by
  have h := predict_band waterDb testReg id (fun x hx => hx) testBody testResp
    rfl
  exact ⟨h.1, h.2.1⟩

/-- C7: in every successful `POST /predict`, the synthetic future feature
row is the last historical feature row with only the year and country fields
overwritten — scarcity level and the numeric covariates are unchanged — and
the response's forecast is the selected model's prediction on exactly that
row. -/
theorem predict_future_row (db : List Record) (reg : Registry) (f : ℚ → ℚ)
    (body : PredictInput) (resp : PredictResponse)
    (h : predict db reg f body = .ok resp) :
    ∃ lastRow rest,
      (featuresFor db body.country).getLast? = some lastRow ∧
      (buildFutureRow lastRow body.country body.year).year = body.year ∧
      (buildFutureRow lastRow body.country body.year).country = body.country ∧
      (buildFutureRow lastRow body.country body.year).scarcity
        = lastRow.scarcity ∧
      (buildFutureRow lastRow body.country body.year).numerics
        = lastRow.numerics ∧
      lookupModel reg (selectModel body.models)
        [buildFutureRow lastRow body.country body.year]
        = some (resp.predicted :: rest) := by
  obtain ⟨lastRow, yFit, yFuture, rest, current, hc, hlast, hfit, hfut, hcur,
    hlen, rfl⟩ := predict_ok_inv h
  exact ⟨lastRow, rest, hlast, rfl, rfl, rfl, rfl, hfut⟩

/-- Witness for C7 on the concrete fixtures: the last Brazil feature row is
the 2020 one, and the future row keeps its scarcity level and covariates. -/
theorem predict_future_row_witness :
    (featuresFor waterDb "Brazil").getLast? = some ⟨2020, "Brazil", "Low", [3]⟩ ∧
    (buildFutureRow ⟨2020, "Brazil", "Low", [3]⟩ "Brazil" 2025).numerics = [3] ∧
    (buildFutureRow ⟨2020, "Brazil", "Low", [3]⟩ "Brazil" 2025).year = 2025 := by
  obtain ⟨lastRow, rest, hlast, hy, hc, hs, hn, hm⟩ :=
    predict_future_row waterDb testReg id testBody testResp rfl
  have hl : lastRow = ⟨2020, "Brazil", "Low", [3]⟩ := by
    have hconc : (featuresFor waterDb "Brazil").getLast?
        = some (⟨2020, "Brazil", "Low", [3]⟩ : FeatureRow) := by decide
    have := hlast.symm.trans hconc
    exact Option.some.inj this
  subst hl
  exact ⟨hlast, hn.trans rfl, hy⟩

/-- C10: every successful `POST /predict` response carries a `metrics` field
that is always the empty mapping and a `model_used` field equal to the
selected (lowercase) registry key. -/
theorem predict_extra_fields (db : List Record) (reg : Registry) (f : ℚ → ℚ)
    (body : PredictInput) (resp : PredictResponse)
    (h : predict db reg f body = .ok resp) :
    resp.metrics = [] ∧
    resp.model_used = selectModel body.models ∧
    resp.model_used ∈ modelKeys ∧
    lowerStr resp.model_used = resp.model_used := by
  obtain ⟨lastRow, yFit, yFuture, rest, current, hc, hlast, hfit, hfut, hcur,
    hlen, rfl⟩ := predict_ok_inv h
  refine ⟨rfl, rfl, selectModel_mem body.models, ?_⟩
  have hmem : selectModel body.models ∈ modelKeys := selectModel_mem body.models
  dsimp only
  have hfix : ∀ k ∈ modelKeys, lowerStr k = k := by decide
  exact hfix _ hmem

/-- Witness for C10 on the concrete fixtures. -/
theorem predict_extra_fields_witness :
    testResp.metrics = [] ∧ testResp.model_used = selectModel ["knn"] := by
  have h := predict_extra_fields waterDb testReg id testBody testResp rfl
  exact ⟨h.1, h.2.1⟩

/-- C5: for a valid country, `GET /compare` always answers 200; each model's
prediction is attempted independently, a model whose predict call raises is
recorded as an empty sequence, one whose call succeeds keeps its
predictions — so even when every model fails the response is 200 with three
empty sequences. -/
theorem compare_partial_failure (db : List Record) (reg : Registry)
    (c : String) (h : c ∈ countriesOf db) :
    compare db reg c = .ok
      { years := (histFor db c).map (fun r => r.year)
        lasso := compareOne reg.lasso (featuresFor db c)
        ridge := compareOne reg.ridge (featuresFor db c)
        knn := compareOne reg.knn (featuresFor db c) } ∧
    (∀ m : Model, m (featuresFor db c) = none →
      compareOne m (featuresFor db c) = []) ∧
    (∀ (m : Model) (preds : List ℚ), m (featuresFor db c) = some preds →
      compareOne m (featuresFor db c) = preds) := by
  refine ⟨?_, ?_, ?_⟩
  · unfold compare
    rw [if_pos h]
    rfl
  · intro m hm; unfold compareOne; rw [hm]
  · intro m preds hm; unfold compareOne; rw [hm]

/-- Witness for C5: with every model failing, `GET /compare` still answers
200 with three empty sequences; with only `ridge` failing, the other two
models' results are kept. -/
theorem compare_partial_failure_witness :
    compare waterDb failReg "Brazil" = .ok
      { years := [2018, 2019, 2020], lasso := [], ridge := [], knn := [] } ∧
    compare waterDb mixedReg "Brazil" = .ok
      { years := [2018, 2019, 2020], lasso := [2018, 2019, 2020],
        ridge := [], knn := [2018, 2019, 2020] } :=
  ⟨((compare_partial_failure waterDb failReg "Brazil" (by decide)).1).trans
      (congrArg Except.ok (by decide)),
   ((compare_partial_failure waterDb mixedReg "Brazil" (by decide)).1).trans
      (congrArg Except.ok (by decide))⟩

/-- C8: for every known country, `GET /analysis` returns the years of its
table rows in non-decreasing order, with `true_values` the target values of
the same rows in the same order: the response lists are images of the sorted
history, which is a permutation of the country's filtered table rows. -/
theorem analysis_sorted (db : List Record) (c : String)
    (h : c ∈ countriesOf db) :
    country_analysis db c = .ok
      { years := (histFor db c).map (fun r => r.year)
        true_values := (histFor db c).map (fun r => r.target) } ∧
    List.Pairwise (fun a b : Int => a ≤ b)
      ((histFor db c).map (fun r => r.year)) ∧
    List.Perm (histFor db c) (db.filter (fun r => r.country == c)) := by
  refine ⟨country_analysis_of_mem h, ?_, List.perm_insertionSort _ _⟩
  have hs : List.Sorted (fun a b : Record => a.year ≤ b.year) (histFor db c) :=
    List.sorted_insertionSort _ _
  rw [List.pairwise_map]
  exact hs

/-- Witness for C8: Brazil's analysis response on the fixture table, whose
rows are stored out of year order. -/
theorem analysis_sorted_witness :
    country_analysis waterDb "Brazil" = .ok
      { years := [2018, 2019, 2020], true_values := [100, 105, 110] } ∧
    List.Pairwise (fun a b : Int => a ≤ b)
      ((histFor waterDb "Brazil").map (fun r => r.year)) := by
  have h := analysis_sorted waterDb "Brazil" (by decide)
  exact ⟨h.1.trans (congrArg Except.ok (by decide)), h.2.1⟩

/-- C9: every country of the derived country list has a non-empty filtered
history, so `build_features` cannot hit its no-data branch and
`GET /analysis` can never answer 404 once country validation has passed. -/
theorem valid_country_reachability (db : List Record) (c : String)
    (h : c ∈ countriesOf db) :
    histFor db c ≠ [] ∧
    build_features db c
      = .ok (histFor db c, featuresFor db c, targetsFor db c) ∧
    (∀ msg : String, country_analysis db c ≠ .error ⟨404, msg⟩) := by
  refine ⟨histFor_ne_nil h, build_features_of_mem h, ?_⟩
  intro msg hcontra
  rw [country_analysis_of_mem h] at hcontra
  exact absurd hcontra (by simp)

/-- Witness for C9 at a concrete valid country. -/
theorem valid_country_reachability_witness :
    ("Chad" : String) ∈ countriesOf waterDb ∧ histFor waterDb "Chad" ≠ [] :=
  ⟨by decide, (valid_country_reachability waterDb "Chad" (by decide)).1⟩

/-- C6: in `GET /metrics`, for every registered model whose prediction
succeeds (one value per row), MAPE is null exactly when every true target
value for the country is zero; otherwise it is the mean of
`|(true - pred) / true| * 100` over the points with nonzero true value. -/
theorem metrics_mape (db : List Record) (reg : Registry) (f : ℚ → ℚ)
    (c : String) (res : MetricsResponse)
    (h : metricsAll db reg f c = .ok res) :
    ∀ (m : Model) (rec : MetricRec),
      ((m, rec) = (reg.lasso, res.lasso) ∨ (m, rec) = (reg.ridge, res.ridge)
        ∨ (m, rec) = (reg.knn, res.knn)) →
      ∀ yPred : List ℚ, m (featuresFor db c) = some yPred →
        yPred.length = (targetsFor db c).length →
        ((rec.MAPE = none ↔ ∀ t ∈ targetsFor db c, t = 0) ∧
         ((∃ t ∈ targetsFor db c, t ≠ 0) →
           rec.MAPE = some (mean ((((targetsFor db c).zip yPred).filter
             (fun tp => tp.1 != 0)).map
             (fun tp => |(tp.1 - tp.2) / tp.1| * 100))))) := by
  have hres := metricsAll_ok_inv h
  subst hres
  rintro m rec (hmr | hmr | hmr) <;>
  · rw [Prod.mk.injEq] at hmr
    obtain ⟨rfl, rfl⟩ := hmr
    intro yPred hm hlen
    exact metricsOne_mape f (targetsFor db c) (featuresFor db c) _ yPred hm hlen

/-- Witness for C6: for Chad (all-zero target) the lasso MAPE is null; for
Brazil (nonzero targets) it is not. -/
theorem metrics_mape_witness :
    metricsAll waterDb testReg id "Chad" = .ok chadMetrics ∧
    chadMetrics.lasso.MAPE = none := by
  have hok : metricsAll waterDb testReg id "Chad" = .ok chadMetrics := rfl
  have happ := metrics_mape waterDb testReg id "Chad" chadMetrics hok
    testReg.lasso chadMetrics.lasso (Or.inl rfl) [(2000 : ℚ)]
    (by decide) (by decide)
  exact ⟨hok, happ.1.mpr (by decide)⟩

end Rander
